import Mathlib

/-!
Verification of the stack-reconciliation core of the `rack` repository.

The Go source under `provider/aws/helpers.go`, the formation template
`provider/aws/formation/app.json.tmpl` and the manifest validation code are
shallowly embedded below.  Go strings are modelled as Lean `String`s
(byte-wise operations coincide with character-wise ones on the ASCII data
the program handles) or as `List Char` where character-level manipulation
is involved; Go maps are modelled as association lists with unique keys,
looked up with `List.lookup`; fallible calls return `Except String`; the
AWS SDK, the object store and the `pkg/cache` package (which is not part
of the sources available here) appear as explicit oracle data or as
definitions modelled from the specification, as marked in doc comments.
-/

namespace Rack

/-! ## Status normalizer (`humanStatus`, helpers.go lines 246-280) -/

/-- Embedding of `humanStatus`: the Go `switch` statement is a chain of
string-equality tests, rendered here as nested `if`s in source order. -/
def humanStatus (original : String) : String :=
  if original = "" then "new"
  else if original = "CREATE_IN_PROGRESS" then "creating"
  else if original = "CREATE_COMPLETE" then "running"
  else if original = "DELETE_FAILED" then "running"
  else if original = "DELETE_IN_PROGRESS" then "deleting"
  else if original = "ROLLBACK_IN_PROGRESS" then "rollback"
  else if original = "ROLLBACK_COMPLETE" then "failed"
  else if original = "UPDATE_IN_PROGRESS" then "updating"
  else if original = "UPDATE_COMPLETE_CLEANUP_IN_PROGRESS" then "updating"
  else if original = "UPDATE_COMPLETE" then "running"
  else if original = "UPDATE_ROLLBACK_IN_PROGRESS" then "rollback"
  else if original = "UPDATE_ROLLBACK_COMPLETE_CLEANUP_IN_PROGRESS" then "rollback"
  else if original = "UPDATE_ROLLBACK_COMPLETE" then "running"
  else if original = "UPDATE_ROLLBACK_FAILED" then "failed"
  else "unknown"

/-- The raw status strings that have an explicit case in `humanStatus`. -/
def statusTable : List String :=
  ["", "CREATE_IN_PROGRESS", "CREATE_COMPLETE", "DELETE_FAILED",
   "DELETE_IN_PROGRESS", "ROLLBACK_IN_PROGRESS", "ROLLBACK_COMPLETE",
   "UPDATE_IN_PROGRESS", "UPDATE_COMPLETE_CLEANUP_IN_PROGRESS",
   "UPDATE_COMPLETE", "UPDATE_ROLLBACK_IN_PROGRESS",
   "UPDATE_ROLLBACK_COMPLETE_CLEANUP_IN_PROGRESS",
   "UPDATE_ROLLBACK_COMPLETE", "UPDATE_ROLLBACK_FAILED"]

/-- C8: `humanStatus` maps every raw status in the table to exactly the
canonical value given by the spec, and every string outside the table to
`"unknown"`, without failing. -/
theorem humanStatus_totality :
    humanStatus "" = "new" ∧
    humanStatus "CREATE_IN_PROGRESS" = "creating" ∧
    humanStatus "CREATE_COMPLETE" = "running" ∧
    humanStatus "UPDATE_IN_PROGRESS" = "updating" ∧
    humanStatus "UPDATE_COMPLETE_CLEANUP_IN_PROGRESS" = "updating" ∧
    humanStatus "UPDATE_COMPLETE" = "running" ∧
    humanStatus "UPDATE_ROLLBACK_COMPLETE" = "running" ∧
    humanStatus "DELETE_IN_PROGRESS" = "deleting" ∧
    humanStatus "DELETE_FAILED" = "running" ∧
    humanStatus "ROLLBACK_IN_PROGRESS" = "rollback" ∧
    humanStatus "UPDATE_ROLLBACK_IN_PROGRESS" = "rollback" ∧
    humanStatus "UPDATE_ROLLBACK_COMPLETE_CLEANUP_IN_PROGRESS" = "rollback" ∧
    humanStatus "ROLLBACK_COMPLETE" = "failed" ∧
    humanStatus "UPDATE_ROLLBACK_FAILED" = "failed" ∧
    ∀ s, s ∉ statusTable → humanStatus s = "unknown" := by
  refine ⟨by decide, by decide, by decide, by decide, by decide, by decide,
    by decide, by decide, by decide, by decide, by decide, by decide,
    by decide, by decide, ?_⟩
  intro s hs
  simp only [statusTable, List.mem_cons, List.not_mem_nil, or_false] at hs
  push_neg at hs
  obtain ⟨h1, h2, h3, h4, h5, h6, h7, h8, h9, h10, h11, h12, h13, h14⟩ := hs
  simp [humanStatus, h1, h2, h3, h4, h5, h6, h7, h8, h9, h10, h11, h12, h13, h14]

/-- Witness for the final, hypothesis-bearing conjunct of
`humanStatus_totality` at a concrete out-of-table status. -/
theorem humanStatus_totality_witness :
    humanStatus "REVIEW_IN_PROGRESS" = "unknown" :=
  humanStatus_totality.2.2.2.2.2.2.2.2.2.2.2.2.2.2 "REVIEW_IN_PROGRESS" (by decide)

/-! ## Deployment-toggle conditions (`app.json.tmpl` lines 13-23)

Each CloudFormation condition is a boolean function of the primitive
parameter strings, transcribed from the `Conditions` block:

* `FargateServicesBase` is `FargateServices == "Yes"`;
* `FargateServicesSpot` is `FargateServices == "Spot"`;
* `FargateServicesEither` is their disjunction;
* `Private` is `Private == "Yes"`;
* `Isolate` is `Private AND Isolate == "Yes"` (an `Fn::And`);
* `IsolateServices` is `FargateServicesEither OR Isolate`.
-/

def condFargateServicesBase (fargateServices : String) : Bool :=
  fargateServices == "Yes"

def condFargateServicesSpot (fargateServices : String) : Bool :=
  fargateServices == "Spot"

def condFargateServicesEither (fargateServices : String) : Bool :=
  condFargateServicesBase fargateServices || condFargateServicesSpot fargateServices

def condPrivate (priv : String) : Bool :=
  priv == "Yes"

def condIsolate (priv isolate : String) : Bool :=
  condPrivate priv && (isolate == "Yes")

def condIsolateServices (fargateServices priv isolate : String) : Bool :=
  condFargateServicesEither fargateServices || condIsolate priv isolate

/-- The `"Isolate"` value handed to each per-service sub-stack
(`app.json.tmpl` line 343): `Fn::If [IsolateServices, "Yes", "No"]`. -/
def serviceIsolateValue (fargateServices priv isolate : String) : String :=
  if condIsolateServices fargateServices priv isolate then "Yes" else "No"

/-- C6 counterexample: with `Isolate = "Yes"` but `Private = "No"` and
`FargateServices = "No"`, the compiled `IsolateServices` condition is
false although the claim (isolation requested OR serverless capacity)
predicts true. -/
theorem isolateServices_counterexample :
    condIsolateServices "No" "No" "Yes" = false ∧
    ((("Yes" : String) == "Yes") || condFargateServicesEither "No") = true ∧
    serviceIsolateValue "No" "No" "Yes" = "No" := by
  decide

/-- C6 amended: `IsolateServices` holds exactly when serverless capacity is
selected (`FargateServices` is `"Yes"` or `"Spot"`) or isolation is
requested while the stack is private (`Private = "Yes"` and
`Isolate = "Yes"`). -/
theorem isolateServices_amended (fargateServices priv isolate : String) :
    condIsolateServices fargateServices priv isolate =
      (condFargateServicesEither fargateServices ||
        ((priv == "Yes") && (isolate == "Yes"))) := by
  rfl

/-! ## Retry/backoff utility (`retry`, helpers.go lines 332-350)

The Go loop invokes `fn`, returns on success, otherwise sleeps
`interval + rand.Intn(int(interval/20))` nanoseconds, increments `i`, and
gives up returning the last error once `i > times`.  The random source is
modelled by an arbitrary draw `j` reduced modulo the bound, which has the
same support as `rand.Intn`; `fn` is modelled by the sequence of results
of its successive invocations (`none` = success, `some e` = error `e`).
-/

/-- Nanoseconds slept before a retry, for a given base `interval` and
random draw `j`: the source computes `interval + rand.Intn(int(interval/20))`
(`rand.Intn(n)` is uniform on `[0, n)`; for `interval < 20` ns it would
panic, a case no caller reaches). -/
def retrySleep (interval j : Nat) : Nat :=
  interval + j % (interval / 20)

/-- One pass of the `retry` loop starting at counter `i`; returns the
total number of invocations made and the final result. -/
def retryFrom (times : Nat) (results : Nat → Option String) (i : Nat) :
    Nat × Option String :=
  match results i with
  | none => (i + 1, none)
  | some e =>
    if h : i + 1 > times then (i + 1, some e)
    else retryFrom times results (i + 1)
termination_by times - i
decreasing_by omega

/-- Embedding of `retry`: the loop starts with `i = 0`. -/
def retry (times : Nat) (results : Nat → Option String) : Nat × Option String :=
  retryFrom times results 0

theorem retryFrom_allFail (errs : Nat → String) (times : Nat) :
    ∀ i, i ≤ times →
      retryFrom times (fun k => some (errs k)) i = (times + 1, some (errs times)) := by
  suffices h : ∀ n i, times - i = n → i ≤ times →
      retryFrom times (fun k => some (errs k)) i = (times + 1, some (errs times)) by
    exact fun i hi => h (times - i) i rfl hi
  intro n
  induction n with
  | zero =>
    intro i hn hi
    have hit : i = times := by omega
    rw [retryFrom]
    dsimp only
    rw [dif_pos (by omega)]
    simp [hit]
  | succ n ih =>
    intro i hn hi
    rw [retryFrom]
    dsimp only
    rw [dif_neg (by omega)]
    exact ih (i + 1) (by omega) (by omega)

/-- C7: for every `times` and every always-failing `fn`, `retry` makes
exactly `times + 1` invocations and returns the error of the final one. -/
theorem retry_bound (times : Nat) (errs : Nat → String) :
    retry times (fun k => some (errs k)) = (times + 1, some (errs times)) :=
  retryFrom_allFail errs times 0 (Nat.zero_le times)

/-- C4: at the spec's own example interval of 10ms (10^7 ns) the sleep is
bounded by `interval + interval/20` (a 5% jitter ceiling), never reaching
the values up to `interval + interval/5` (20%) that the claim and the
code's own `add 20% jitter` comment describe: `interval + 10^6` ns lies
inside the claimed jitter range but outside the code's. -/
theorem retryJitterDivergence :
    (∀ j, retrySleep 10000000 j < 10000000 + 500000) ∧
    (10000000 : Nat) / 20 = 500000 ∧
    (10000000 : Nat) / 5 = 2000000 ∧
    10000000 + 1000000 < 10000000 + 10000000 / 5 ∧
    (∀ j, retrySleep 10000000 j ≠ 10000000 + 1000000) := by
  refine ⟨?_, by norm_num, by norm_num, by norm_num, ?_⟩
  · intro j
    have h : j % 500000 < 500000 := Nat.mod_lt j (by norm_num)
    simp only [retrySleep]
    norm_num
    omega
  · intro j
    have h : j % 500000 < 500000 := Nat.mod_lt j (by norm_num)
    simp only [retrySleep]
    norm_num
    omega

/-! ## Cron labels (`NewCronJobFromLabel`, helpers.go lines 1470-1480, and
`Manifest.Validate` from the manifest package)

Character-level string handling is modelled on `List Char`.  `fields`
mirrors `strings.Fields` (split on whitespace, dropping empty fields),
`splitOn` mirrors `strings.Split` (always at least one piece), and
`joinWith` mirrors `strings.Join`.
-/

/-- Whitespace recognised by `strings.Fields` on the ASCII range. -/
def isSpaceChar (c : Char) : Bool :=
  c == ' ' || c == '\t' || c == '\n' || c == '\r' ||
  c == (Char.ofNat 11) || c == (Char.ofNat 12)

def fieldsAux : List Char → List Char → List (List Char)
  | [], acc => if acc.isEmpty then [] else [acc.reverse]
  | c :: rest, acc =>
    if isSpaceChar c then
      if acc.isEmpty then fieldsAux rest [] else acc.reverse :: fieldsAux rest []
    else fieldsAux rest (c :: acc)

/-- Embedding of `strings.Fields`. -/
def fields (s : List Char) : List (List Char) :=
  fieldsAux s []

def splitOnAux (sep : Char) : List Char → List Char → List (List Char)
  | [], acc => [acc.reverse]
  | c :: rest, acc =>
    if c == sep then acc.reverse :: splitOnAux sep rest []
    else splitOnAux sep rest (c :: acc)

/-- Embedding of `strings.Split` with a one-character separator; the
result is always non-empty. -/
def splitOn (sep : Char) (s : List Char) : List (List Char) :=
  splitOnAux sep s []

def joinWith (sep : Char) : List (List Char) → List Char
  | [] => []
  | [w] => w
  | w :: ws => w ++ sep :: joinWith sep ws

structure CronJob where
  name : List Char
  schedule : List Char
  command : List Char
deriving DecidableEq

/-- Embedding of `NewCronJobFromLabel`.  The source takes
`tokens := strings.Fields(value)` and evaluates `tokens[0:5]` and
`tokens[5:]`; since `strings.Fields` returns a slice whose capacity equals
its length, `tokens[0:5]` panics whenever fewer than 5 fields are present.
The panic is modelled as `none`. -/
def NewCronJobFromLabel (key value : List Char) : Option CronJob :=
  let keySlice := splitOn '.' key
  let name := keySlice.getLastD []
  let tokens := fields value
  if 5 ≤ tokens.length then
    some { name := name
           schedule := ("cron(".toList) ++ joinWith ' ' (tokens.take 5) ++ (" *)".toList)
           command := joinWith ' ' (tokens.drop 5) }
  else none

def isAlphaChar (c : Char) : Bool :=
  ('a' ≤ c && c ≤ 'z') || ('A' ≤ c && c ≤ 'Z')

def isCronNameChar (c : Char) : Bool :=
  isAlphaChar c || ('0' ≤ c && c ≤ '9') || c == '-'

/-- The regular expression used by `Manifest.Validate`,
`\A[a-zA-Z][-a-zA-Z0-9]{3,29}\z`: one letter followed by 3 to 29
alphanumeric-or-dash characters. -/
def validCronName : List Char → Bool
  | [] => false
  | c :: rest =>
    isAlphaChar c && rest.all isCronNameChar &&
      decide (3 ≤ rest.length) && decide (rest.length ≤ 29)

/-- Embedding of the loop body of `Manifest.Validate` over the cron labels
of a service (the output of `LabelsByPrefix("convox.cron")`): each label
key must split on `.` into exactly 3 parts and the third part must match
the name pattern; the label value is never inspected. -/
def validateCronLabels : List (List Char × List Char) → Except String Unit
  | [] => Except.ok ()
  | (k, _) :: rest =>
    let parts := splitOn '.' k
    if parts.length ≠ 3 then
      Except.error "Cron task is not valid (must be in format convox.cron.myjob)"
    else if ¬ validCronName (parts.getD 2 []) then
      Except.error "Cron task name is not valid"
    else validateCronLabels rest

/-- C10: every cron label value with fewer than 5 whitespace-separated
fields makes `NewCronJobFromLabel` panic (modelled as `none`), while
`Manifest.Validate` accepts the label `convox.cron.myjob -> "* * * *"`
whose value has only 4 fields, because it never inspects the value. -/
theorem cronLabel_panic :
    (∀ key value, (fields value).length < 5 → NewCronJobFromLabel key value = none) ∧
    validateCronLabels [(("convox.cron.myjob".toList), ("* * * *".toList))] = Except.ok () ∧
    (fields ("* * * *".toList)).length = 4 ∧
    NewCronJobFromLabel ("convox.cron.myjob".toList) ("* * * *".toList) = none := by
  refine ⟨?_, by rfl, by decide, by decide⟩
  intro key value h
  simp only [NewCronJobFromLabel]
  rw [if_neg (by omega)]

/-- Witness for the hypothesis-bearing conjunct of `cronLabel_panic` at a
concrete 4-field schedule. -/
theorem cronLabel_panic_witness :
    (fields ("0 3 * *".toList)).length < 5 ∧
    NewCronJobFromLabel ("convox.cron.backup".toList) ("0 3 * *".toList) = none :=
  ⟨by decide, cronLabel_panic.1 ("convox.cron.backup".toList) ("0 3 * *".toList) (by decide)⟩

/-! ## SHA-256 and base32 (used by `CronJob.LongName`, helpers.go 1501-1511)

`LongName` hashes the natural job name with `crypto/sha256` and encodes
the digest with `encoding/base32.StdEncoding`.  Both are embedded here
over byte lists (`List Nat`, each element reduced modulo 256 where it is
consumed); 32-bit words are `Nat` reduced modulo `2^32`. -/

def w32 : Nat := 4294967296

def add32 (a b : Nat) : Nat := (a + b) % w32

def rotr32 (x n : Nat) : Nat := ((x >>> n) ||| (x <<< (32 - n))) % w32

def not32 (x : Nat) : Nat := (w32 - 1) - x % w32

def ch32 (x y z : Nat) : Nat := (x &&& y) ^^^ (not32 x &&& z)

def maj32 (x y z : Nat) : Nat := (x &&& y) ^^^ (x &&& z) ^^^ (y &&& z)

def bsig0 (x : Nat) : Nat := rotr32 x 2 ^^^ rotr32 x 13 ^^^ rotr32 x 22

def bsig1 (x : Nat) : Nat := rotr32 x 6 ^^^ rotr32 x 11 ^^^ rotr32 x 25

def ssig0 (x : Nat) : Nat := rotr32 x 7 ^^^ rotr32 x 18 ^^^ (x >>> 3)

def ssig1 (x : Nat) : Nat := rotr32 x 17 ^^^ rotr32 x 19 ^^^ (x >>> 10)

/-- The 64 SHA-256 round constants. -/
def K256 : List Nat :=
  [1116352408, 1899447441, 3049323471, 3921009573,
   961987163, 1508970993, 2453635748, 2870763221,
   3624381080, 310598401, 607225278, 1426881987,
   1925078388, 2162078206, 2614888103, 3248222580,
   3835390401, 4022224774, 264347078, 604807628,
   770255983, 1249150122, 1555081692, 1996064986,
   2554220882, 2821834349, 2952996808, 3210313671,
   3336571891, 3584528711, 113926993, 338241895,
   666307205, 773529912, 1294757372, 1396182291,
   1695183700, 1986661051, 2177026350, 2456956037,
   2730485921, 2820302411, 3259730800, 3345764771,
   3516065817, 3600352804, 4094571909, 275423344,
   430227734, 506948616, 659060556, 883997877,
   958139571, 1322822218, 1537002063, 1747873779,
   1955562222, 2024104815, 2227730452, 2361852424,
   2428436474, 2756734187, 3204031479, 3329325298]

/-- Big-endian 8-byte encoding of the message bit length. -/
def lenBytes64 (n : Nat) : List Nat :=
  [(n >>> 56) % 256, (n >>> 48) % 256, (n >>> 40) % 256, (n >>> 32) % 256,
   (n >>> 24) % 256, (n >>> 16) % 256, (n >>> 8) % 256, n % 256]

/-- SHA-256 padding: a `0x80` byte, zeros to 56 mod 64, then the bit
length. -/
def sha256pad (msg : List Nat) : List Nat :=
  msg ++ 128 :: List.replicate ((120 - (msg.length + 1) % 64) % 64) 0 ++
    lenBytes64 (8 * msg.length)

def chunks64 : List Nat → List (List Nat)
  | [] => []
  | a :: l => (a :: l).take 64 :: chunks64 ((a :: l).drop 64)
termination_by l => l.length
decreasing_by simp only [List.length_drop, List.length_cons]; omega

def bytesToWords : List Nat → List Nat
  | b0 :: b1 :: b2 :: b3 :: rest =>
    ((((b0 % 256) * 256 + (b1 % 256)) * 256 + (b2 % 256)) * 256 + (b3 % 256)) ::
      bytesToWords rest
  | _ => []

/-- One step of the message-schedule extension; the schedule is kept in
reverse (most recent word first), so `w[i-2]` is entry 1, `w[i-7]` entry 6,
`w[i-15]` entry 14 and `w[i-16]` entry 15. -/
def scheduleStep (rev : List Nat) : List Nat :=
  add32 (add32 (ssig1 (rev.getD 1 0)) (rev.getD 6 0))
        (add32 (ssig0 (rev.getD 14 0)) (rev.getD 15 0)) :: rev

/-- Extend the 16 block words to the 64-word schedule. -/
def schedule (w16 : List Nat) : List Nat :=
  (scheduleStep^[48] w16.reverse).reverse

structure H8 where
  a : Nat
  b : Nat
  c : Nat
  d : Nat
  e : Nat
  f : Nat
  g : Nat
  h : Nat

def initH : H8 :=
  ⟨1779033703, 3144134277, 1013904242, 2773480762,
   1359893119, 2600822924, 528734635, 1541459225⟩

def round256 (s : H8) (k w : Nat) : H8 :=
  let t1 := add32 s.h (add32 (bsig1 s.e) (add32 (ch32 s.e s.f s.g) (add32 k w)))
  let t2 := add32 (bsig0 s.a) (maj32 s.a s.b s.c)
  ⟨add32 t1 t2, s.a, s.b, s.c, add32 s.d t1, s.e, s.f, s.g⟩

def processBlock (s : H8) (block : List Nat) : H8 :=
  let t := ((K256.zip (schedule (bytesToWords block))).foldl
    (fun st p => round256 st p.1 p.2) s)
  ⟨add32 s.a t.a, add32 s.b t.b, add32 s.c t.c, add32 s.d t.d,
   add32 s.e t.e, add32 s.f t.f, add32 s.g t.g, add32 s.h t.h⟩

def wordBytesBE (x : Nat) : List Nat :=
  [(x >>> 24) % 256, (x >>> 16) % 256, (x >>> 8) % 256, x % 256]

/-- SHA-256 digest of a byte list: 32 bytes. -/
def sha256 (msg : List Nat) : List Nat :=
  let s := (chunks64 (sha256pad msg)).foldl processBlock initH
  wordBytesBE s.a ++ wordBytesBE s.b ++ wordBytesBE s.c ++ wordBytesBE s.d ++
  wordBytesBE s.e ++ wordBytesBE s.f ++ wordBytesBE s.g ++ wordBytesBE s.h

theorem sha256_length (msg : List Nat) : (sha256 msg).length = 32 := by
  simp [sha256, wordBytesBE]

def b32Alphabet : List Char := "ABCDEFGHIJKLMNOPQRSTUVWXYZ234567".toList

def b32c (n : Nat) : Char := b32Alphabet.getD (n % 32) 'A'

/-- `encoding/base32.StdEncoding` over byte lists, including the `=`
padding of a trailing partial group (every group, full or partial,
contributes exactly 8 output characters). -/
def b32Encode : List Nat → List Char
  | b0 :: b1 :: b2 :: b3 :: b4 :: rest =>
    let n := ((((b0 % 256) * 256 + (b1 % 256)) * 256 + (b2 % 256)) * 256 +
      (b3 % 256)) * 256 + (b4 % 256)
    [b32c (n >>> 35), b32c (n >>> 30), b32c (n >>> 25), b32c (n >>> 20),
     b32c (n >>> 15), b32c (n >>> 10), b32c (n >>> 5), b32c n] ++ b32Encode rest
  | [b0, b1, b2, b3] =>
    let n := (((b0 % 256) * 256 + (b1 % 256)) * 256 + (b2 % 256)) * 256 + (b3 % 256)
    [b32c (n >>> 27), b32c (n >>> 22), b32c (n >>> 17), b32c (n >>> 12),
     b32c (n >>> 7), b32c (n >>> 2), b32c ((n % 4) * 8), '=']
  | [b0, b1, b2] =>
    let n := ((b0 % 256) * 256 + (b1 % 256)) * 256 + (b2 % 256)
    [b32c (n >>> 19), b32c (n >>> 14), b32c (n >>> 9), b32c (n >>> 4),
     b32c ((n % 16) * 2), '=', '=', '=']
  | [b0, b1] =>
    let n := (b0 % 256) * 256 + (b1 % 256)
    [b32c (n >>> 11), b32c (n >>> 6), b32c (n >>> 1), b32c ((n % 2) * 16),
     '=', '=', '=', '=']
  | [b0] =>
    [b32c ((b0 % 256) >>> 3), b32c (((b0 % 256) % 8) * 4), '=', '=', '=', '=', '=', '=']
  | [] => []

theorem b32Encode_length_ge (l : List Nat) (h : 5 ≤ l.length) :
    8 ≤ (b32Encode l).length := by
  rcases l with _ | ⟨b0, _ | ⟨b1, _ | ⟨b2, _ | ⟨b3, _ | ⟨b4, rest⟩⟩⟩⟩⟩
  · simp at h
  · simp at h
  · simp at h
  · simp at h
  · simp at h
  · simp [b32Encode]

/-! ## `CronJob.LongName` (helpers.go lines 1501-1511)

The natural name is `RACK-app-process-job`; its SHA-256 digest is base32
encoded and the first 7 characters, prefixed with a dash, form the
suffix; the natural name is truncated so that name, suffix and the later
`-schedule` part fit in 64 characters (`len(prefix) <= 55 - len(suffix)`).
The `RACK` environment variable and the CronJob fields are explicit
arguments here. -/

def naturalCronName (rackEnv appName process name : List Char) : List Char :=
  rackEnv ++ '-' :: appName ++ '-' :: process ++ '-' :: name

def cronSuffix (pfx : List Char) : List Char :=
  '-' :: (b32Encode (sha256 (pfx.map Char.toNat))).take 7

def longNameOfNatural (pfx : List Char) : List Char :=
  (if 55 - (cronSuffix pfx).length < pfx.length
    then pfx.take (55 - (cronSuffix pfx).length)
    else pfx) ++ cronSuffix pfx

/-- Embedding of `CronJob.LongName`. -/
def LongName (rackEnv appName process name : List Char) : List Char :=
  longNameOfNatural (naturalCronName rackEnv appName process name)

theorem cronSuffix_length (pfx : List Char) : (cronSuffix pfx).length = 8 := by
  have h32 : (sha256 (pfx.map Char.toNat)).length = 32 := sha256_length _
  have h8 : 8 ≤ (b32Encode (sha256 (pfx.map Char.toNat))).length :=
    b32Encode_length_ge _ (by omega)
  simp only [cronSuffix, List.length_cons, List.length_take]
  omega

/-- C9: `LongName` always has the form `pfx ++ "-" ++ hash7` with a
7-character hash suffix and a (possibly truncated) readable part of at
most 47 characters, hence total length at most 64 (in fact at most 55);
and it is a deterministic function of the natural name
`rack-app-process-job`. -/
theorem longName_bounded (rackEnv appName process name : List Char) :
    (LongName rackEnv appName process name).length ≤ 64 ∧
    (∃ pfx hash7, LongName rackEnv appName process name = pfx ++ '-' :: hash7 ∧
      hash7.length = 7 ∧ pfx.length ≤ 47) ∧
    (∀ r2 a2 p2 n2,
      naturalCronName rackEnv appName process name = naturalCronName r2 a2 p2 n2 →
      LongName rackEnv appName process name = LongName r2 a2 p2 n2) := by
  refine ⟨?_, ?_, ?_⟩
  · have hs := cronSuffix_length (naturalCronName rackEnv appName process name)
    simp only [LongName, longNameOfNatural, List.length_append, hs]
    split
    · rename_i hcond
      rw [List.length_take]
      omega
    · rename_i hcond
      omega
  · refine ⟨if 55 - (cronSuffix (naturalCronName rackEnv appName process name)).length <
        (naturalCronName rackEnv appName process name).length
      then (naturalCronName rackEnv appName process name).take
        (55 - (cronSuffix (naturalCronName rackEnv appName process name)).length)
      else naturalCronName rackEnv appName process name,
      (b32Encode (sha256 ((naturalCronName rackEnv appName process name).map
        Char.toNat))).take 7, ?_, ?_, ?_⟩
    · simp only [LongName, longNameOfNatural, cronSuffix]
    · have h32 : (sha256 ((naturalCronName rackEnv appName process name).map
        Char.toNat)).length = 32 := sha256_length _
      have h8 : 8 ≤ (b32Encode (sha256 ((naturalCronName rackEnv appName
        process name).map Char.toNat))).length := b32Encode_length_ge _ (by omega)
      rw [List.length_take]
      omega
    · have hs := cronSuffix_length (naturalCronName rackEnv appName process name)
      split
      · rename_i hcond
        rw [List.length_take]
        omega
      · rename_i hcond
        omega
  · intro r2 a2 p2 n2 hnat
    simp only [LongName, hnat]

/-- Witness for `longName_bounded`, whose determinism conjunct carries a
hypothesis, at a concrete job name. -/
theorem longName_bounded_witness :
    (LongName ("dev".toList) ("app".toList) ("web".toList) ("job".toList)).length ≤ 64 ∧
    LongName ("dev".toList) ("app".toList) ("web".toList) ("job".toList) =
      LongName ("dev".toList) ("app".toList) ("web".toList) ("job".toList) :=
  ⟨(longName_bounded ("dev".toList) ("app".toList) ("web".toList) ("job".toList)).1,
   (longName_bounded ("dev".toList) ("app".toList) ("web".toList)
     ("job".toList)).2.2 ("dev".toList) ("app".toList) ("web".toList)
     ("job".toList) rfl⟩

/-! ## Read-through cache and AWS description helpers

The helpers of `helpers.go` consult the `pkg/cache` package, which is not
among the available sources; its `Get`/`Set`/`Clear` operations are
modelled from the specification (section 4.4).  The spec's single global
bypass flag ("when set, every `Get` is a forced miss and every `Set` is a
no-op", used for test determinism) is identified with the provider's
`SkipCache` toggle, so the same boolean is passed both to the cache
primitives and to the helpers' own `!p.SkipCache` guards.  AWS SDK calls
appear as oracle fields of `AwsEnv` giving the result each call would
produce during the run; errors carry the AWS error code or message as a
string.  Time is a natural number of nanoseconds. -/

/-- Read-projection of a live CloudFormation stack (`cloudformation.Stack`):
parameter and tag association lists. -/
structure StackCF where
  parameters : List (String × String)
  tags : List (String × String)
deriving DecidableEq

structure CIInput where
  cluster : String
  containerInstances : List String
deriving DecidableEq

structure CIOut where
  containerInstances : List String
deriving DecidableEq

structure TaskCF where
  taskDefinitionArn : String
deriving DecidableEq

structure TasksInput where
  cluster : String
  tasks : List String
deriving DecidableEq

structure TasksOut where
  tasks : List TaskCF
  failures : List String
deriving DecidableEq

structure ContainerDef where
  dockerLabels : List (String × Option String)
deriving DecidableEq

structure TDInput where
  taskDefinition : String
deriving DecidableEq

structure TDOut where
  containerDefinitions : List ContainerDef
deriving DecidableEq

/-- Structural cache keys: the helpers key on an optional stack name, a
plain string, or a whole request structure. -/
inductive CKey
  | ostr (s : Option String)
  | str (s : String)
  | ci (i : CIInput)
  | tasks (i : TasksInput)
  | td (i : TDInput)
deriving DecidableEq

/-- Cached values, one constructor per value type stored by the helpers;
the `Get` call sites perform a Go type assertion, modelled as a partial
projection out of this sum. -/
inductive CVal
  | stackList (s : List StackCF)
  | ciOut (o : CIOut)
  | tasksOut (o : TasksOut)
  | tdOut (o : TDOut)
  | str (s : String)
deriving DecidableEq

structure CEntry where
  collection : String
  key : CKey
  value : CVal
  expires : Nat
deriving DecidableEq

abbrev Cache := List CEntry

def second : Nat := 1000000000

def hour : Nat := 3600 * second

/-- Modelled from the spec: `pkg/cache.Get(operation, key)`.  Keys are
compared structurally, a read after the per-entry TTL expiry is a miss,
and the global bypass flag forces a miss. -/
def cacheGet (bypass : Bool) (now : Nat) (c : Cache) (col : String) (k : CKey) :
    Option CVal :=
  if bypass then none
  else
    match c.find? (fun e => decide (e.collection = col ∧ e.key = k)) with
    | some e => if now < e.expires then some e.value else none
    | none => none

/-- Modelled from the spec: `pkg/cache.Set(operation, key, value, ttl)`
stores an entry that expires after `ttl`; under the global bypass flag it
is a no-op. -/
def cacheSet (bypass : Bool) (now : Nat) (c : Cache) (col : String) (k : CKey)
    (v : CVal) (ttl : Nat) : Cache :=
  if bypass then c else ⟨col, k, v, now + ttl⟩ :: c

/-- Modelled from the spec: `pkg/cache.Clear(operation, key)` removes the
entries for that operation and key. -/
def cacheClear (c : Cache) (col : String) (k : CKey) : Cache :=
  c.filter (fun e => decide (¬ (e.collection = col ∧ e.key = k)))

/-- Provider configuration fields read by the helpers. -/
structure ProviderCfg where
  region : String
  settingsBucket : String
  cloudformationTopic : String
  cluster : String
deriving DecidableEq

/-- A parsed object-store URL (`url.Parse` output, scheme and path). -/
structure UrlParts where
  scheme : String
  path : String
deriving DecidableEq

/-- The external collaborators consulted during a run: each field is the
result the corresponding AWS / object-store call would produce. -/
structure AwsEnv where
  dsp : Option String → Except String (List StackCF)
  ecsDescribeContainerInstances : CIInput → Except String CIOut
  ecsDescribeTasks : TasksInput → Except String TasksOut
  ecsDescribeTaskDefinition : TDInput → Except String TDOut
  objectStore : Except String UrlParts
  updateStackApi : Option String

/-- Embedding of `describeContainerInstances` (helpers.go 606-625). -/
def describeContainerInstances (skip : Bool) (now : Nat) (c : Cache) (env : AwsEnv)
    (input : CIInput) : Except String CIOut × Cache :=
  match cacheGet skip now c "describeContainerInstances" (.ci input) with
  | some (.ciOut res) => (.ok res, c)
  | _ =>
    match env.ecsDescribeContainerInstances input with
    | .error e => (.error e, c)
    | .ok res =>
      (.ok res,
       if skip then c
       else cacheSet skip now c "describeContainerInstances" (.ci input)
         (.ciOut res) (5 * second))

/-- Embedding of `describeStacks` (helpers.go 649-677); the key is the
input's optional `StackName`. -/
def describeStacks (skip : Bool) (now : Nat) (c : Cache) (env : AwsEnv)
    (stackName : Option String) : Except String (List StackCF) × Cache :=
  match cacheGet skip now c "describeStacks" (.ostr stackName) with
  | some (.stackList s) => (.ok s, c)
  | _ =>
    match env.dsp stackName with
    | .error e => (.error e, c)
    | .ok sts =>
      (.ok sts,
       if skip then c
       else cacheSet skip now c "describeStacks" (.ostr stackName)
         (.stackList sts) (5 * second))

/-- Embedding of `describeStack` (helpers.go 679-694): a `ValidationError`
code becomes "stack not found", and any result count other than one
becomes "could not load stack". -/
def describeStack (skip : Bool) (now : Nat) (c : Cache) (env : AwsEnv)
    (name : String) : Except String StackCF × Cache :=
  match describeStacks skip now c env (some name) with
  | (.error e, c2) =>
    if e = "ValidationError" then (.error ("stack not found: " ++ name), c2)
    else (.error e, c2)
  | (.ok sts, c2) =>
    match sts with
    | [s] => (.ok s, c2)
    | _ => (.error ("could not load stack: " ++ name), c2)

/-- Embedding of `describeTasks` (helpers.go 1002-1022): the result is
cached only when the cache is not skipped and there were no failures. -/
def describeTasks (skip : Bool) (now : Nat) (c : Cache) (env : AwsEnv)
    (input : TasksInput) : Except String TasksOut × Cache :=
  match cacheGet skip now c "describeTasks" (.tasks input) with
  | some (.tasksOut res) => (.ok res, c)
  | _ =>
    match env.ecsDescribeTasks input with
    | .error e => (.error e, c)
    | .ok res =>
      (.ok res,
       if !skip && res.failures.isEmpty
       then cacheSet skip now c "describeTasks" (.tasks input) (.tasksOut res)
         (10 * second)
       else c)

/-- Embedding of `describeTaskDefinition` (helpers.go 979-1000). -/
def describeTaskDefinition (skip : Bool) (now : Nat) (c : Cache) (env : AwsEnv)
    (input : TDInput) : Except String TDOut × Cache :=
  match cacheGet skip now c "describeTaskDefinition" (.td input) with
  | some (.tdOut td) => (.ok td, c)
  | _ =>
    match env.ecsDescribeTaskDefinition input with
    | .error e =>
      if e = "ValidationError"
      then (.error ("task definition not found: " ++ input.taskDefinition), c)
      else (.error e, c)
    | .ok res =>
      (.ok res,
       if skip then c
       else cacheSet skip now c "describeTaskDefinition" (.td input) (.tdOut res)
         (24 * hour))

/-- Embedding of `taskDefinitionRelease` (helpers.go 1213-1238).  The
source guards with `len(...) < 0`, which never holds, and then indexes
`ContainerDefinitions[0]`, which panics on an empty list (modelled as an
error); its final `cache.Set` is NOT guarded by `p.SkipCache`. -/
def taskDefinitionRelease (skip : Bool) (now : Nat) (c : Cache) (env : AwsEnv)
    (arn : String) : Except String String × Cache :=
  match cacheGet skip now c "taskDefinitionRelease" (.str arn) with
  | some (.str release) => (.ok release, c)
  | _ =>
    match describeTaskDefinition skip now c env ⟨arn⟩ with
    | (.error e, c2) => (.error e, c2)
    | (.ok td, c2) =>
      match td.containerDefinitions.head? with
      | none => (.error "panic: index out of range", c2)
      | some cd =>
        match cd.dockerLabels.lookup "convox.release" with
        | none => (.error ("no convox.release label for task definition: " ++ arn), c2)
        | some none => (.error ("no convox.release label for task definition: " ++ arn), c2)
        | some (some release) =>
          (.ok release,
           cacheSet skip now c2 "taskDefinitionRelease" (.str arn) (.str release)
             (24 * hour))

/-- Embedding of `taskRelease` (helpers.go 1185-1211); its final
`cache.Set` is NOT guarded by `p.SkipCache`. -/
def taskRelease (cfg : ProviderCfg) (skip : Bool) (now : Nat) (c : Cache)
    (env : AwsEnv) (id : String) : Except String String × Cache :=
  match cacheGet skip now c "taskRelease" (.str id) with
  | some (.str release) => (.ok release, c)
  | _ =>
    match describeTasks skip now c env ⟨cfg.cluster, [id]⟩ with
    | (.error e, c2) => (.error e, c2)
    | (.ok t, c2) =>
      match t.tasks.head? with
      | none => (.error ("task not found: " ++ id), c2)
      | some task =>
        match taskDefinitionRelease skip now c2 env task.taskDefinitionArn with
        | (.error e, c3) => (.error e, c3)
        | (.ok release, c3) =>
          (.ok release,
           cacheSet skip now c3 "taskRelease" (.str id) (.str release) (24 * hour))

/-- Embedding of `objectURL` (helpers.go 1046-1057). -/
def objectURL (cfg : ProviderCfg) (u : UrlParts) : Except String String :=
  if u.scheme ≠ "object" then Except.error "only supports object:// urls"
  else Except.ok ("https://s3." ++ cfg.region ++ ".amazonaws.com/" ++
    cfg.settingsBucket ++ u.path)

/-! ## `updateStack` (helpers.go 1240-1350) -/

/-- Byte-wise (here character-wise, identical on ASCII) lexicographic
comparison, as used by `sort.Strings`. -/
def charListLe : List Char → List Char → Bool
  | [], _ => true
  | _ :: _, [] => false
  | x :: xs, y :: ys =>
    if x.toNat < y.toNat then true
    else if x.toNat = y.toNat then charListLe xs ys
    else false

def strLe (a b : String) : Bool := charListLe a.toList b.toList

def insertSorted (s : String) : List String → List String
  | [] => [s]
  | x :: xs => if strLe s x then s :: x :: xs else x :: insertSorted s xs

/-- Sorted iteration over the keys of a Go map: the keys are unique
(modelled by `dedup` at call sites) and sorted as by `sort.Strings`. -/
def sortStrings (l : List String) : List String := l.foldr insertSorted []

/-- A submitted `cloudformation.Parameter`: either an explicit
`ParameterValue` or the `UsePreviousValue` carry-forward marker. -/
inductive PValue
  | explicit (v : String)
  | usePrevious
deriving DecidableEq

/-- The parameter list built by `updateStack` (lines 1304-1325): sorted
iteration over the target parameter set; a parameter with an entry in
`changes` is submitted with that value, one present on the live stack is
submitted as `UsePreviousValue`, any other is omitted. -/
def submitParams (target pexisting : List String)
    (changes : List (String × String)) : List (String × PValue) :=
  (sortStrings target.dedup).filterMap fun param =>
    match changes.lookup param with
    | some v => some (param, PValue.explicit v)
    | none =>
      if pexisting.contains param then some (param, PValue.usePrevious) else none

/-- The tag list built by `updateStack` (lines 1327-1342): the live
stack's tags, then every supplied tag appended in sorted key order. -/
def mergeTags (stackTags tags : List (String × String)) : List (String × String) :=
  stackTags ++ (sortStrings ((tags.map Prod.fst).dedup)).map
    (fun key => (key, (tags.lookup key).getD ""))

deriving instance DecidableEq for Except

/-- A compiled template body, modelled by the outcome of
`formationParameters` on it (JSON decoding via `parseFormation` followed
by enumeration of the `Parameters` keys). -/
structure TemplateData where
  formationParams : Except String (List String)
deriving DecidableEq

/-- The `cloudformation.UpdateStackInput` submitted to the provider. -/
structure UpdateReq where
  stackName : String
  notificationARNs : List String
  clientRequestToken : Option String
  templateURL : Option String
  usePreviousTemplate : Bool
  parameters : List (String × PValue)
  tags : List (String × String)
deriving DecidableEq

/-- Result of a run of `updateStack`: the request given to the provider
(`none` when an early error prevented submission), the returned error,
and the final cache state. -/
structure UpdateOutcome where
  submitted : Option UpdateReq
  err : Option String
  cache : Cache
deriving DecidableEq

/-- The tail of `updateStack` once the describe, externalization and
decode steps have succeeded: build the request, call the provider, clear
the `describeStacks` entries again. -/
def updateSubmit (cfg : ProviderCfg) (env : AwsEnv) (c : Cache) (name : String)
    (templateURL : Option String) (usePrev : Bool) (target pexisting : List String)
    (changes tags : List (String × String)) (id : String) (stack : StackCF) :
    UpdateOutcome :=
  let req : UpdateReq :=
    { stackName := name
      notificationARNs := [cfg.cloudformationTopic]
      clientRequestToken := if id = "" then none else some id
      templateURL := templateURL
      usePreviousTemplate := usePrev
      parameters := submitParams target pexisting changes
      tags := mergeTags stack.tags tags }
  { submitted := some req
    err := env.updateStackApi
    cache := cacheClear (cacheClear c "describeStacks" (CKey.ostr none))
      "describeStacks" (CKey.ostr (some name)) }

/-- Embedding of `updateStack`: clear the cached descriptions, describe
the live stack (through the cache), externalize and decode a supplied
template (or reuse the previous one), build the parameter and tag lists,
submit, and clear the cached descriptions again.  Early errors return
without the trailing clears, as in the source. -/
def updateStack (cfg : ProviderCfg) (skip : Bool) (now : Nat) (c0 : Cache)
    (env : AwsEnv) (name : String) (template : Option TemplateData)
    (changes tags : List (String × String)) (id : String) : UpdateOutcome :=
  match describeStack skip now
      (cacheClear (cacheClear c0 "describeStacks" (CKey.ostr none))
        "describeStacks" (CKey.ostr (some name))) env name with
  | (.error e, c2) => { submitted := none, err := some e, cache := c2 }
  | (.ok stack, c2) =>
    match template with
    | some t =>
      match env.objectStore with
      | .error e => { submitted := none, err := some e, cache := c2 }
      | .ok u =>
        match objectURL cfg u with
        | .error e => { submitted := none, err := some e, cache := c2 }
        | .ok tu =>
          match t.formationParams with
          | .error e => { submitted := none, err := some e, cache := c2 }
          | .ok fps =>
            updateSubmit cfg env c2 name (some tu) false fps
              (stack.parameters.map Prod.fst) changes tags id stack
    | none =>
      updateSubmit cfg env c2 name none true (stack.parameters.map Prod.fst)
        (stack.parameters.map Prod.fst) changes tags id stack

/-! ## Cache and sorting lemmas -/

theorem cacheGet_clear (bypass : Bool) (now : Nat) (c : Cache) (col : String)
    (k : CKey) : cacheGet bypass now (cacheClear c col k) col k = none := by
  unfold cacheGet
  split
  · rfl
  · have h : (cacheClear c col k).find?
        (fun e => decide (e.collection = col ∧ e.key = k)) = none := by
      rw [List.find?_eq_none]
      intro x hx
      simp only [cacheClear, List.mem_filter] at hx
      have h2 := hx.2
      simp only [decide_eq_true_eq] at h2 ⊢
      exact h2
    rw [h]

theorem cacheClear_comm (c : Cache) (col : String) (k : CKey) (col2 : String)
    (k2 : CKey) :
    cacheClear (cacheClear c col k) col2 k2 =
      cacheClear (cacheClear c col2 k2) col k := by
  simp only [cacheClear, List.filter_filter]
  congr 1
  funext e
  rw [Bool.and_comm]

theorem mem_insertSorted (s a : String) (l : List String) :
    a ∈ insertSorted s l ↔ a = s ∨ a ∈ l := by
  induction l with
  | nil => simp [insertSorted]
  | cons x xs ih =>
    simp only [insertSorted]
    split
    · simp [List.mem_cons]
    · simp only [List.mem_cons, ih]
      tauto

theorem mem_sortStrings (a : String) (l : List String) :
    a ∈ sortStrings l ↔ a ∈ l := by
  induction l with
  | nil => simp [sortStrings]
  | cons x xs ih =>
    simp only [sortStrings, List.foldr_cons] at *
    rw [mem_insertSorted, ih, List.mem_cons]

theorem lookup_some_mem_keys {k v : String} {l : List (String × String)}
    (h : l.lookup k = some v) : k ∈ l.map Prod.fst := by
  induction l with
  | nil => simp [List.lookup] at h
  | cons p t ih =>
    rw [List.lookup_cons] at h
    cases hk : (k == p.1)
    · rw [hk] at h
      simp only [List.map_cons, List.mem_cons]
      exact Or.inr (ih h)
    · simp only [List.map_cons, List.mem_cons]
      exact Or.inl (eq_of_beq hk)

/-- After the double clear at the top of `updateStack`, the describe step
is a forced cache miss, so its result is exactly the oracle's. -/
theorem describeStack_after_clear (skip : Bool) (now : Nat) (c0 : Cache)
    (env : AwsEnv) (name : String) (stack : StackCF)
    (hd : env.dsp (some name) = Except.ok [stack]) :
    ∃ c2, describeStack skip now
      (cacheClear (cacheClear c0 "describeStacks" (CKey.ostr none))
        "describeStacks" (CKey.ostr (some name))) env name =
      (Except.ok stack, c2) := by
  have hget := cacheGet_clear skip now
    (cacheClear c0 "describeStacks" (CKey.ostr none)) "describeStacks"
    (CKey.ostr (some name))
  unfold describeStack describeStacks
  rw [hget, hd]
  exact ⟨_, rfl⟩

/-- Every run of `updateStack` either submits no request, or its final
cache is the double clear of some intermediate cache. -/
theorem updateStack_cases (cfg : ProviderCfg) (skip : Bool) (now : Nat)
    (c0 : Cache) (env : AwsEnv) (name : String) (template : Option TemplateData)
    (changes tags : List (String × String)) (id : String) :
    (updateStack cfg skip now c0 env name template changes tags id).submitted = none ∨
    ∃ c2, (updateStack cfg skip now c0 env name template changes tags id).cache =
      cacheClear (cacheClear c2 "describeStacks" (CKey.ostr none))
        "describeStacks" (CKey.ostr (some name)) := by
  unfold updateStack
  split
  · exact Or.inl rfl
  · split
    · split
      · exact Or.inl rfl
      · split
        · exact Or.inl rfl
        · split
          · exact Or.inl rfl
          · exact Or.inr ⟨_, rfl⟩
    · exact Or.inr ⟨_, rfl⟩

theorem contains_true (l : List String) (a : String) :
    l.contains a = true ↔ a ∈ l := by
  induction l with
  | nil => simp
  | cons x xs ih =>
    simp only [List.contains_cons, List.mem_cons, Bool.or_eq_true, beq_iff_eq, ih]

/-- C1: whenever `updateStack` can describe the live stack, the submitted
parameter list is `submitParams` of the target parameter set (the
template's Formation parameters when a template is supplied, the live
stack's parameter names otherwise), the live parameter names, and the
explicit changes; and `submitParams` submits each target parameter with
its explicit change when one is given, as a `UsePreviousValue` marker
when the live stack already had it, and omits it otherwise. -/
theorem updateStack_param_carry (cfg : ProviderCfg) (skip : Bool) (now : Nat)
    (c0 : Cache) (env : AwsEnv) (name : String) (stack : StackCF)
    (changes tags : List (String × String)) (id : String)
    (hd : env.dsp (some name) = Except.ok [stack]) :
    (∀ fps u tu, env.objectStore = Except.ok u → objectURL cfg u = Except.ok tu →
      ∃ req, (updateStack cfg skip now c0 env name (some ⟨Except.ok fps⟩)
          changes tags id).submitted = some req ∧
        req.parameters = submitParams fps (stack.parameters.map Prod.fst) changes) ∧
    (∃ req, (updateStack cfg skip now c0 env name none changes tags id).submitted =
        some req ∧
      req.parameters = submitParams (stack.parameters.map Prod.fst)
        (stack.parameters.map Prod.fst) changes) ∧
    (∀ target pexisting chgs p, p ∈ target →
      (∀ v, chgs.lookup p = some v →
        (p, PValue.explicit v) ∈ submitParams target pexisting chgs) ∧
      (chgs.lookup p = none → p ∈ pexisting →
        (p, PValue.usePrevious) ∈ submitParams target pexisting chgs) ∧
      (chgs.lookup p = none → p ∉ pexisting →
        ∀ q, (p, q) ∉ submitParams target pexisting chgs)) := by
  obtain ⟨c2, hds⟩ := describeStack_after_clear skip now c0 env name stack hd
  refine ⟨?_, ?_, ?_⟩
  · intro fps u tu ho hu
    unfold updateStack
    rw [hds]
    dsimp only
    rw [ho]
    dsimp only
    rw [hu]
    exact ⟨_, rfl, rfl⟩
  · unfold updateStack
    rw [hds]
    exact ⟨_, rfl, rfl⟩
  · intro target pexisting chgs p hp
    have hmem : p ∈ sortStrings target.dedup :=
      (mem_sortStrings p target.dedup).mpr (List.mem_dedup.mpr hp)
    refine ⟨?_, ?_, ?_⟩
    · intro v hv
      refine List.mem_filterMap.mpr ⟨p, hmem, ?_⟩
      rw [hv]
    · intro hnone hex
      refine List.mem_filterMap.mpr ⟨p, hmem, ?_⟩
      rw [hnone]
      dsimp only
      rw [if_pos ((contains_true pexisting p).mpr hex)]
    · intro hnone hnotex q hq
      obtain ⟨a, ha, hfa⟩ := List.mem_filterMap.mp hq
      cases hlk : chgs.lookup a with
      | some v =>
        rw [hlk] at hfa
        simp only [Option.some.injEq, Prod.mk.injEq] at hfa
        obtain ⟨hap, hvq⟩ := hfa
        subst hap
        simp [hnone] at hlk
      | none =>
        rw [hlk] at hfa
        dsimp only at hfa
        have hmem2 : a ∈ pexisting ∧ a = p := by
          by_cases hc : pexisting.contains a = true
          · rw [if_pos hc] at hfa
            simp only [Option.some.injEq, Prod.mk.injEq] at hfa
            exact ⟨(contains_true pexisting a).mp hc, hfa.1⟩
          · rw [if_neg hc] at hfa
            cases hfa
        exact hnotex (hmem2.2 ▸ hmem2.1)

/-! ## Concrete runs used for witnesses and counterexamples -/

/-- An environment whose unused ECS oracles always fail. -/
def envOf (ds : Option String → Except String (List StackCF))
    (os : Except String UrlParts) (ua : Option String) : AwsEnv :=
  { dsp := ds
    ecsDescribeContainerInstances := fun _ => Except.error "unused"
    ecsDescribeTasks := fun _ => Except.error "unused"
    ecsDescribeTaskDefinition := fun _ => Except.error "unused"
    objectStore := os
    updateStackApi := ua }

def cfgW : ProviderCfg := ⟨"us-east-1", "settings", "topic-arn", "cluster-1"⟩

/-- The spec's carry-forward example: live stack with `A="1"`, `B="2"`. -/
def stackC : StackCF := ⟨[("A", "1"), ("B", "2")], []⟩

def envC : AwsEnv :=
  envOf (fun _ => Except.ok [stackC]) (Except.ok ⟨"object", "/k"⟩) none

/-- Witness for `updateStack_param_carry` at the spec's own example: live
stack `{A:"1", B:"2"}`, changes `{A:"9"}`, target `{A, B, C}`: the
submitted list is exactly `A="9"` explicit, `B` carry-forward, `C`
omitted. -/
theorem updateStack_param_carry_witness :
    (updateStack cfgW false 0 [] envC "s" (some ⟨Except.ok ["A", "B", "C"]⟩)
      [("A", "9")] [] "").submitted.map UpdateReq.parameters =
      some [("A", PValue.explicit "9"), ("B", PValue.usePrevious)] := by
  obtain ⟨req, hreq, hpar⟩ := (updateStack_param_carry cfgW false 0 [] envC "s"
    stackC [("A", "9")] [] "" rfl).1 ["A", "B", "C"] ⟨"object", "/k"⟩
    "https://s3.us-east-1.amazonaws.com/settings/k" rfl rfl
  rw [hreq]
  simp only [Option.map_some']
  rw [hpar]
  decide

/-- A run whose object-store externalization fails. -/
def envX : AwsEnv :=
  envOf (fun _ => Except.ok [⟨[("A", "1")], []⟩]) (Except.error "s3 unavailable") none

def updateRunX : UpdateOutcome :=
  updateStack cfgW false 0 [] envX "s" (some ⟨Except.ok ["A"]⟩) [] [] ""

/-- C2 counterexample: when the externalization step fails, `updateStack`
returns the error without the trailing clears, and the describe step has
just re-populated the cache, so the next `Get` for `describeStacks("s")`
is a hit, not a miss. -/
theorem updateStack_clear_counterexample :
    updateRunX.err = some "s3 unavailable" ∧
    updateRunX.submitted = none ∧
    cacheGet false 0 updateRunX.cache "describeStacks" (CKey.ostr (some "s")) =
      some (CVal.stackList [⟨[("A", "1")], []⟩]) := by
  decide

/-- C2 amended: on every run of `updateStack` that reaches the provider
call (a request was submitted, whether the provider accepted or rejected
it), the `describeStacks` cache entries for the stack name and for the
wildcard are cleared, so the next `Get` is a miss. -/
theorem updateStack_clear_on_submit (cfg : ProviderCfg) (skip : Bool) (now : Nat)
    (c0 : Cache) (env : AwsEnv) (name : String) (template : Option TemplateData)
    (changes tags : List (String × String)) (id : String) (req : UpdateReq)
    (hreq : (updateStack cfg skip now c0 env name template changes tags
      id).submitted = some req) (b : Bool) (t : Nat) :
    cacheGet b t (updateStack cfg skip now c0 env name template changes tags
      id).cache "describeStacks" (CKey.ostr (some name)) = none ∧
    cacheGet b t (updateStack cfg skip now c0 env name template changes tags
      id).cache "describeStacks" (CKey.ostr none) = none := by
  rcases updateStack_cases cfg skip now c0 env name template changes tags id with
    h | ⟨c2, hc⟩
  · rw [h] at hreq
    cases hreq
  · rw [hc]
    constructor
    · exact cacheGet_clear b t _ "describeStacks" (CKey.ostr (some name))
    · rw [cacheClear_comm]
      exact cacheGet_clear b t _ "describeStacks" (CKey.ostr none)

/-- A successful update run: live tags `env=old`, supplied tags
`env=new`. -/
def envW2 : AwsEnv :=
  envOf (fun _ => Except.ok [⟨[("A", "1")], [("env", "old")]⟩])
    (Except.ok ⟨"object", "/k"⟩) none

def updateRunW : UpdateOutcome :=
  updateStack cfgW false 0 [] envW2 "s" none [] [("env", "new")] ""

def reqW : UpdateReq := updateRunW.submitted.getD ⟨"", [], none, none, false, [], []⟩

/-- Witness for `updateStack_clear_on_submit` on a concrete successful
run. -/
theorem updateStack_clear_on_submit_witness :
    cacheGet false 0 updateRunW.cache "describeStacks" (CKey.ostr (some "s")) =
      none ∧
    cacheGet false 0 updateRunW.cache "describeStacks" (CKey.ostr none) = none :=
  updateStack_clear_on_submit cfgW false 0 [] envW2 "s" none [] [("env", "new")]
    "" reqW (by decide) false 0

/-- C5 counterexample: on the same run, the supplied tag `env=new` whose
key already exists on the live stack appears TWICE in the submitted tag
list (the live value first, the supplied value appended), not exactly
once. -/
theorem updateStack_tags_counterexample :
    (updateRunW.submitted.map UpdateReq.tags) =
      some [("env", "old"), ("env", "new")] ∧
    ((updateRunW.submitted.map UpdateReq.tags).getD []).countP
      (fun kv => kv.1 == "env") = 2 := by
  decide

/-- C5 amended: `updateStack` builds the submitted tag list by appending
the supplied tags, in sorted key order, AFTER the live stack's tags,
without removing duplicates: a supplied tag whose key exists on the live
stack appears at least twice — once with the live value and once with the
supplied value. -/
theorem updateStack_tags_appended (cfg : ProviderCfg) (skip : Bool) (now : Nat)
    (c0 : Cache) (env : AwsEnv) (name : String) (stack : StackCF)
    (changes tags : List (String × String)) (id : String) (k vOld vNew : String)
    (hd : env.dsp (some name) = Except.ok [stack])
    (hold : (k, vOld) ∈ stack.tags) (hnew : tags.lookup k = some vNew) :
    ∃ req, (updateStack cfg skip now c0 env name none changes tags id).submitted =
        some req ∧
      req.tags = mergeTags stack.tags tags ∧
      (k, vOld) ∈ req.tags ∧ (k, vNew) ∈ req.tags ∧
      2 ≤ req.tags.countP (fun kv => kv.1 == k) := by
  obtain ⟨c2, hds⟩ := describeStack_after_clear skip now c0 env name stack hd
  unfold updateStack
  rw [hds]
  have hnewmem : (k, vNew) ∈ (sortStrings ((tags.map Prod.fst).dedup)).map
      (fun key => (key, (tags.lookup key).getD "")) := by
    have hk2 : k ∈ sortStrings ((tags.map Prod.fst).dedup) :=
      (mem_sortStrings k _).mpr (List.mem_dedup.mpr (lookup_some_mem_keys hnew))
    have hx : (k, (tags.lookup k).getD "") ∈
        (sortStrings ((tags.map Prod.fst).dedup)).map
          (fun key => (key, (tags.lookup key).getD "")) :=
      List.mem_map.mpr ⟨k, hk2, rfl⟩
    rw [hnew] at hx
    simpa using hx
  refine ⟨_, rfl, rfl, ?_, ?_, ?_⟩
  · exact List.mem_append.mpr (Or.inl hold)
  · exact List.mem_append.mpr (Or.inr hnewmem)
  · show 2 ≤ (mergeTags stack.tags tags).countP (fun kv => kv.1 == k)
    have h1 : 0 < stack.tags.countP (fun kv => kv.1 == k) :=
      List.countP_pos_iff.mpr ⟨(k, vOld), hold, by simp⟩
    have h2 : 0 < ((sortStrings ((tags.map Prod.fst).dedup)).map
        (fun key => (key, (tags.lookup key).getD ""))).countP
        (fun kv => kv.1 == k) :=
      List.countP_pos_iff.mpr ⟨(k, vNew), hnewmem, by simp⟩
    simp only [mergeTags, List.countP_append]
    omega

/-- Witness for `updateStack_tags_appended` at the concrete run. -/
theorem updateStack_tags_appended_witness :
    ∃ req, updateRunW.submitted = some req ∧
      req.tags = mergeTags [("env", "old")] [("env", "new")] ∧
      ("env", "old") ∈ req.tags ∧ ("env", "new") ∈ req.tags ∧
      2 ≤ req.tags.countP (fun kv => kv.1 == "env") :=
  updateStack_tags_appended cfgW false 0 [] envW2 "s"
    ⟨[("A", "1")], [("env", "old")]⟩ [] [("env", "new")] "" "env" "old" "new"
    rfl (by decide) (by decide)

/-! ## Cache bypass (C3): with the global flag set, each helper leaves the
cache untouched and its result does not depend on the cache contents. -/

theorem describeContainerInstances_skip (now : Nat) (env : AwsEnv)
    (input : CIInput) :
    ∃ r, ∀ c, describeContainerInstances true now c env input = (r, c) := by
  cases h : env.ecsDescribeContainerInstances input with
  | error e =>
    exact ⟨.error e, fun c => by
      unfold describeContainerInstances
      simp [cacheGet, h]⟩
  | ok res =>
    exact ⟨.ok res, fun c => by
      unfold describeContainerInstances
      simp [cacheGet, h]⟩

theorem describeStacks_skip (now : Nat) (env : AwsEnv) (sn : Option String) :
    ∃ r, ∀ c, describeStacks true now c env sn = (r, c) := by
  cases h : env.dsp sn with
  | error e =>
    exact ⟨.error e, fun c => by
      unfold describeStacks
      simp [cacheGet, h]⟩
  | ok sts =>
    exact ⟨.ok sts, fun c => by
      unfold describeStacks
      simp [cacheGet, h]⟩

theorem describeTasks_skip (now : Nat) (env : AwsEnv) (input : TasksInput) :
    ∃ r, ∀ c, describeTasks true now c env input = (r, c) := by
  cases h : env.ecsDescribeTasks input with
  | error e =>
    exact ⟨.error e, fun c => by
      unfold describeTasks
      simp [cacheGet, h]⟩
  | ok res =>
    exact ⟨.ok res, fun c => by
      unfold describeTasks
      simp [cacheGet, h]⟩

theorem describeTaskDefinition_skip (now : Nat) (env : AwsEnv) (input : TDInput) :
    ∃ r, ∀ c, describeTaskDefinition true now c env input = (r, c) := by
  cases h : env.ecsDescribeTaskDefinition input with
  | error e =>
    refine ⟨if e = "ValidationError"
      then .error ("task definition not found: " ++ input.taskDefinition)
      else .error e, fun c => ?_⟩
    unfold describeTaskDefinition
    simp only [cacheGet, if_true]
    rw [h]
    dsimp only
    by_cases he : e = "ValidationError" <;> simp [he]
  | ok res =>
    exact ⟨.ok res, fun c => by
      unfold describeTaskDefinition
      simp [cacheGet, h]⟩

theorem taskDefinitionRelease_skip (now : Nat) (env : AwsEnv) (arn : String) :
    ∃ r, ∀ c, taskDefinitionRelease true now c env arn = (r, c) := by
  obtain ⟨r1, hr1⟩ := describeTaskDefinition_skip now env ⟨arn⟩
  cases r1 with
  | error e =>
    exact ⟨.error e, fun c => by
      unfold taskDefinitionRelease
      simp [cacheGet, hr1 c]⟩
  | ok td =>
    cases hh : td.containerDefinitions.head? with
    | none =>
      exact ⟨.error "panic: index out of range", fun c => by
        unfold taskDefinitionRelease
        simp [cacheGet, hr1 c, hh]⟩
    | some cd =>
      cases hl : cd.dockerLabels.lookup "convox.release" with
      | none =>
        exact ⟨.error ("no convox.release label for task definition: " ++ arn),
          fun c => by
            unfold taskDefinitionRelease
            simp [cacheGet, hr1 c, hh, hl]⟩
      | some ro =>
        cases ro with
        | none =>
          exact ⟨.error ("no convox.release label for task definition: " ++ arn),
            fun c => by
              unfold taskDefinitionRelease
              simp [cacheGet, hr1 c, hh, hl]⟩
        | some release =>
          exact ⟨.ok release, fun c => by
            unfold taskDefinitionRelease
            simp [cacheGet, cacheSet, hr1 c, hh, hl]⟩

theorem taskRelease_skip (cfg : ProviderCfg) (now : Nat) (env : AwsEnv)
    (id : String) :
    ∃ r, ∀ c, taskRelease cfg true now c env id = (r, c) := by
  obtain ⟨r1, hr1⟩ := describeTasks_skip now env ⟨cfg.cluster, [id]⟩
  cases r1 with
  | error e =>
    exact ⟨.error e, fun c => by
      unfold taskRelease
      simp [cacheGet, hr1 c]⟩
  | ok t =>
    cases hh : t.tasks.head? with
    | none =>
      exact ⟨.error ("task not found: " ++ id), fun c => by
        unfold taskRelease
        simp [cacheGet, hr1 c, hh]⟩
    | some task =>
      obtain ⟨r2, hr2⟩ := taskDefinitionRelease_skip now env task.taskDefinitionArn
      cases r2 with
      | error e =>
        exact ⟨.error e, fun c => by
          unfold taskRelease
          simp [cacheGet, hr1 c, hh, hr2 c]⟩
      | ok release =>
        exact ⟨.ok release, fun c => by
          unfold taskRelease
          simp [cacheGet, cacheSet, hr1 c, hh, hr2 c]⟩

/-- C3: with the global cache-bypass flag (`SkipCache`) set, the cached
description helpers store nothing (the cache after the call is exactly the
cache before it) and return nothing previously cached (the result is the
one obtained on an empty cache, whatever the prior cache contents): every
`Get` is a forced miss and every `Set` is a no-op. -/
theorem skipCache_forced_miss (cfg : ProviderCfg) (now : Nat) (c : Cache)
    (env : AwsEnv) (ciIn : CIInput) (sn : Option String) (id : String) :
    ((describeContainerInstances true now c env ciIn).2 = c ∧
      (describeContainerInstances true now c env ciIn).1 =
        (describeContainerInstances true now [] env ciIn).1) ∧
    ((describeStacks true now c env sn).2 = c ∧
      (describeStacks true now c env sn).1 =
        (describeStacks true now [] env sn).1) ∧
    ((taskRelease cfg true now c env id).2 = c ∧
      (taskRelease cfg true now c env id).1 =
        (taskRelease cfg true now [] env id).1) := by
  obtain ⟨r1, h1⟩ := describeContainerInstances_skip now env ciIn
  obtain ⟨r2, h2⟩ := describeStacks_skip now env sn
  obtain ⟨r3, h3⟩ := taskRelease_skip cfg now env id
  rw [h1 c, h1 [], h2 c, h2 [], h3 c, h3 []]
  exact ⟨⟨rfl, rfl⟩, ⟨rfl, rfl⟩, rfl, rfl⟩

end Rack
